import Mathlib

/-!
Shallow embedding of the QR-menu API core (src/main.py): order store and
lifecycle, table-identity store and provisioning, and the mission-log
analytics engine.  Python dicts are modelled as insertion-ordered
association lists, randomness (uuid4, random.randint) as explicit streams,
HTTP exceptions as an error value carrying the status code and an
identifier of the detail message, and the current wall-clock time as an
explicit parameter.
-/

namespace QrMenu

/-- Identifier of the detail message attached to an HTTPException. -/
inductive ErrDetail where
  | invalidToken
  | invalidPin
  | orderNotFound
  | invalidStatus
  | tokenExists
  | tableNumberExists
  | tokenNotFound
  | duplicateTableNumbers
  | totalTablesMin
  | totalTablesMax
  | robotDataNotFound
  | metricsCalcFailed
  deriving DecidableEq, Repr

/-- HTTPException: status code plus detail-message identifier. -/
structure ApiError where
  status : Nat
  detail : ErrDetail
  deriving DecidableEq, Repr

/-- OrderItem pydantic model (src/main.py lines 77-84). -/
structure OrderItem where
  id : Int
  name : String
  description : String
  price : Int
  quantity : Int
  category : String
  image : String
  deriving DecidableEq, Repr

/-- OrderCreate pydantic model (lines 87-92); `status` defaults to "pending". -/
structure OrderCreate where
  table_number : Int
  items : List OrderItem
  total : Int
  timestamp : String
  status : String
  deriving DecidableEq, Repr

/-- An OrderCreate built from the four client-supplied fields, with the
pydantic default `status = "pending"`. -/
def mkOrderCreate (table_number : Int) (items : List OrderItem) (total : Int)
    (timestamp : String) : OrderCreate :=
  ⟨table_number, items, total, timestamp, "pending"⟩

/-- A stored order record.  `timestamp` is Option to reflect that records
read back from the JSON file may lack the key (`o.get("timestamp", "")`). -/
structure Order where
  order_id : String
  table_number : Int
  items : List OrderItem
  total : Int
  timestamp : Option String
  status : String
  deriving DecidableEq, Repr

/-- The sort key used by get_orders: `o.get("timestamp", "")`. -/
def order_ts (o : Order) : String := o.timestamp.getD ""

/-- create_order (lines 388-415).  The uuid4-generated identifier is passed
in explicitly.  Returns the saved collection and the generated id. -/
def create_order (orders : List Order) (new_uuid : String) (order : OrderCreate) :
    List Order × String :=
  let order_data : Order :=
    { order_id := new_uuid
      table_number := order.table_number
      items := order.items
      total := order.total
      timestamp := some order.timestamp
      status := order.status }
  (orders ++ [order_data], new_uuid)

/-- get_orders (lines 418-433): optional equality filters, then a stable
sort by timestamp string, newest first. -/
def get_orders (orders : List Order) (table : Option Int) (status : Option String) :
    List Order :=
  let o1 := match table with
    | none => orders
    | some t => orders.filter (fun o => o.table_number == t)
  let o2 := match status with
    | none => o1
    | some s => o1.filter (fun o => o.status == s)
  o2.mergeSort (fun a b => order_ts b ≤ order_ts a)

/-- The valid status set of update_order_status (line 505). -/
def valid_statuses : List String := ["pending", "ready", "delivered", "failed"]

/-- The in-place loop of update_order_status: overwrite the status of the
first order whose order_id matches. -/
def updateFirst (orders : List Order) (order_id : String) (s : String) : List Order :=
  match orders with
  | [] => []
  | o :: rest =>
      if o.order_id == order_id then { o with status := s } :: rest
      else o :: updateFirst rest order_id s

/-- update_order_status (lines 480-528).  Returns the resulting persisted
collection (unchanged when an HTTPException is raised before save_orders)
and the response: the updated order found again by its id, or the error. -/
def update_order_status (orders : List Order) (order_id : String) (update_status : String) :
    List Order × Except ApiError (Option Order) :=
  if ¬ valid_statuses.contains update_status then
    (orders, .error ⟨400, .invalidStatus⟩)
  else if orders.any (fun o => o.order_id == order_id) then
    (updateFirst orders order_id update_status,
     .ok ((updateFirst orders order_id update_status).find?
        (fun o => o.order_id == order_id)))
  else
    (orders, .error ⟨404, .orderNotFound⟩)

/-- The AND-combination of the two optional equality filters of get_orders. -/
def matchesFilters (table : Option Int) (status : Option String) (o : Order) : Bool :=
  (match table with | none => true | some t => o.table_number == t) &&
  (match status with | none => true | some s => o.status == s)

/-! Identity store: token→table and pin→table mappings.  A Python dict is
an insertion-ordered association list with distinct keys; `dictInsert`
mirrors `mapping[k] = v` (update in place, or append when the key is new). -/

/-- Insertion-ordered dict of string keys to integer table numbers. -/
abbrev Mapping := List (String × Int)

/-- Membership test `k in mapping`. -/
def mapHasKey (m : Mapping) (k : String) : Bool :=
  m.any (fun p => p.1 == k)

/-- Lookup `mapping.get(k)`. -/
def mapFind (m : Mapping) (k : String) : Option Int :=
  (m.find? (fun p => p.1 == k)).map (fun p => p.2)

/-- `mapping[k] = v`: replace in place when the key exists, else append. -/
def dictInsert (m : Mapping) (k : String) (v : Int) : Mapping :=
  if mapHasKey m k then m.map (fun p => if p.1 == k then (k, v) else p)
  else m ++ [(k, v)]

/-- `del mapping[k]`. -/
def dictErase (m : Mapping) (k : String) : Mapping :=
  m.filter (fun p => p.1 != k)

/-- Python `next((token for token, num in mapping.items() if num == v), None)`. -/
def findKeyByVal (m : Mapping) (v : Int) : Option String :=
  (m.find? (fun p => p.2 == v)).map (fun p => p.1)

/-- The keys of a mapping. -/
def mapKeys (m : Mapping) : List String := m.map (fun p => p.1)

/-- The values of a mapping. -/
def mapVals (m : Mapping) : List Int := m.map (fun p => p.2)

/-- Injectivity of a mapping seen as a function key → table number
(distinct keys, no table number owned by two keys). -/
def injectiveMapping (m : Mapping) : Prop :=
  (mapKeys m).Nodup ∧ (mapVals m).Nodup

instance (m : Mapping) : Decidable (injectiveMapping m) := by
  unfold injectiveMapping
  infer_instance

/-- Python truthiness of `next(...)`'s result: `if existing_table:` is
false both for None and for the empty-string token. -/
def truthyKey (k : Option String) : Bool :=
  match k with
  | none => false
  | some s => !s.isEmpty

/-- create_table_mapping (lines 683-711): reject an existing token, reject
a table number already owned by a (truthy) token, else add. -/
def create_table_mapping (m : Mapping) (token : String) (table_number : Int) :
    Mapping × Except ApiError Unit :=
  if mapHasKey m token then (m, .error ⟨400, .tokenExists⟩)
  else if truthyKey (findKeyByVal m table_number) then
    (m, .error ⟨400, .tableNumberExists⟩)
  else (dictInsert m token table_number, .ok ())

/-- update_table_mapping (lines 714-741): 404 for an unknown token, reject
a new table number owned by a different (truthy) token, else overwrite. -/
def update_table_mapping (m : Mapping) (token : String) (table_number : Int) :
    Mapping × Except ApiError Unit :=
  if ¬ mapHasKey m token then (m, .error ⟨404, .tokenNotFound⟩)
  else if truthyKey ((m.find? (fun p => p.2 == table_number && p.1 != token)).map
      (fun p => p.1)) then
    (m, .error ⟨400, .tableNumberExists⟩)
  else (dictInsert m token table_number, .ok ())

/-- delete_table_mapping (lines 744-764). -/
def delete_table_mapping (m : Mapping) (token : String) :
    Mapping × Except ApiError (Option Int) :=
  if ¬ mapHasKey m token then (m, .error ⟨404, .tokenNotFound⟩)
  else (dictErase m token, .ok (mapFind m token))

/-- bulk_update_tables (lines 767-785): reject duplicate table numbers in
the payload (`len(values) != len(set(values))`), else replace everything. -/
def bulk_update_tables (m : Mapping) (payload : Mapping) :
    Mapping × Except ApiError Unit :=
  if (mapVals payload).Nodup then (payload, .ok ())
  else (m, .error ⟨400, .duplicateTableNumbers⟩)

/-! Provisioning engine (configure_tables, generate_table_token,
generate_table_pin).  uuid4 and random.randint are modelled as explicit
streams indexed by the table pass index. -/

/-- The random sources of one provisioning pass: `tokenUuid i` is the
dash-stripped uuid4 hex used for the token of pass index `i`, `pinDraw i j`
the result of the `j`-th `random.randint(1000, 9999)` attempt for that
pass index, and `pinUuid i` the dash-stripped uuid4 hex of its fallback. -/
structure Rng where
  tokenUuid : Nat → String
  pinDraw : Nat → Nat → Nat
  pinUuid : Nat → String

/-- generate_table_token (lines 162-166). -/
def generate_table_token (table_number : Nat) (uuidHex : String) : String :=
  "table" ++ toString table_number ++ "_token_" ++ uuidHex.take 12

/-- generate_table_pin (lines 169-183): up to 1000 draws checked against
the in-progress set; the loop takes the first fresh draw, and exhaustion
falls back to an unchecked uuid-derived 4-character string. -/
def generate_table_pin (existing : List String) (draw : Nat → Nat) (uuidHex : String) :
    String :=
  match (List.range 1000).find? (fun j => !(existing.contains (toString (draw j)))) with
  | some j => toString (draw j)
  | none => uuidHex.take 4

/-- State threaded through the table loop of configure_tables: the two
mappings being built and the `existing_pins` set. -/
structure ProvState where
  tok : Mapping
  pin : Mapping
  existingPins : List String

/-- One iteration of the loop of configure_tables (lines 566-571) at pass
index `i` (table number `i + 1`). -/
def provisionStep (rng : Rng) (st : ProvState) (i : Nat) : ProvState :=
  let token := generate_table_token (i + 1) (rng.tokenUuid i)
  let pin := generate_table_pin st.existingPins (rng.pinDraw i) (rng.pinUuid i)
  { tok := dictInsert st.tok token ((i : Int) + 1)
    pin := dictInsert st.pin pin ((i : Int) + 1)
    existingPins :=
      if st.existingPins.contains pin then st.existingPins
      else st.existingPins ++ [pin] }

/-- The loop of configure_tables over table numbers 1..n. -/
def provisionLoop (rng : Rng) (n : Nat) : ProvState :=
  (List.range n).foldl (provisionStep rng) ⟨[], [], []⟩

/-- configure_tables (lines 552-588): range check, then regeneration of
both mappings, replacing the stored ones.  Returns the two persisted
mappings (unchanged on error) and the outcome. -/
def configure_tables (total_tables : Int) (rng : Rng) (tokFile pinFile : Mapping) :
    Mapping × Mapping × Except ApiError Unit :=
  if total_tables < 1 then (tokFile, pinFile, .error ⟨400, .totalTablesMin⟩)
  else if total_tables > 100 then (tokFile, pinFile, .error ⟨400, .totalTablesMax⟩)
  else
    let st := provisionLoop rng total_tables.toNat
    (st.tok, st.pin, .ok ())

/-- The pin generated at pass index `i` of a provisioning pass. -/
def passPin (rng : Rng) (i : Nat) : String :=
  generate_table_pin (provisionLoop rng i).existingPins (rng.pinDraw i) (rng.pinUuid i)

/-- The checked retry loop found a fresh 4-digit pin at pass index `i`
(the uuid fallback of generate_table_pin was not taken). -/
def noFallbackAt (rng : Rng) (i : Nat) : Prop :=
  ((List.range 1000).find?
    (fun j => !((provisionLoop rng i).existingPins.contains (toString (rng.pinDraw i j))))).isSome

instance (rng : Rng) (i : Nat) : Decidable (noFallbackAt rng i) := by
  unfold noFallbackAt
  infer_instance

/-! Mission-log analytics engine.  Python datetimes are a civil-calendar
record; subtraction and comparison go through an absolute second count
computed with the standard Gregorian day-number algorithm, matching
datetime's proleptic Gregorian arithmetic.  `datetime.now()` is an
explicit parameter. -/

/-- A naive datetime (proleptic Gregorian calendar). -/
structure DateTime where
  year : Int
  month : Int
  day : Int
  hour : Int
  minute : Int
  second : Int
  deriving DecidableEq, Repr

/-- Days since 1970-01-01 of a civil date (Gregorian day-number algorithm). -/
def daysFromCivil (y m d : Int) : Int :=
  let y2 := if m ≤ 2 then y - 1 else y
  let era := Int.fdiv y2 400
  let yoe := y2 - era * 400
  let mp := if m > 2 then m - 3 else m + 9
  let doy := Int.fdiv (153 * mp + 2) 5 + d - 1
  let doe := yoe * 365 + Int.fdiv yoe 4 - Int.fdiv yoe 100 + doy
  era * 146097 + doe - 719468

/-- Civil date of a day count since 1970-01-01 (inverse of daysFromCivil). -/
def civilFromDays (z : Int) : Int × Int × Int :=
  let z2 := z + 719468
  let era := Int.fdiv z2 146097
  let doe := z2 - era * 146097
  let yoe := Int.fdiv (doe - Int.fdiv doe 1460 + Int.fdiv doe 36524 - Int.fdiv doe 146096) 365
  let y := yoe + era * 400
  let doy := doe - (365 * yoe + Int.fdiv yoe 4 - Int.fdiv yoe 100)
  let mp := Int.fdiv (5 * doy + 2) 153
  let d := doy - Int.fdiv (153 * mp + 2) 5 + 1
  let m := if mp < 10 then mp + 3 else mp - 9
  (if m ≤ 2 then y + 1 else y, m, d)

/-- Absolute second count of a datetime; datetime comparison and
subtraction reduce to this count. -/
def toSec (t : DateTime) : Int :=
  daysFromCivil t.year t.month t.day * 86400 + t.hour * 3600 + t.minute * 60 + t.second

/-- `timedelta.days` of `a - b`: floor of the difference in days. -/
def deltaDays (a b : DateTime) : Int :=
  Int.fdiv (toSec a - toSec b) 86400

/-- The datetime `i` days before `t` (same time of day). -/
def subDays (t : DateTime) (i : Nat) : DateTime :=
  let c := civilFromDays (daysFromCivil t.year t.month t.day - i)
  ⟨c.1, c.2.1, c.2.2, t.hour, t.minute, t.second⟩

/-- Is a Gregorian leap year. -/
def isLeap (y : Int) : Bool :=
  (y % 4 == 0 && y % 100 != 0) || y % 400 == 0

/-- Day count of a month, for date validation. -/
def daysInMonth (y m : Int) : Int :=
  if m == 2 then (if isLeap y then 29 else 28)
  else if m == 4 || m == 6 || m == 9 || m == 11 then 30
  else 31

/-- Build a datetime from parsed fields, validating ranges the way the
datetime constructor (hence strptime) does. -/
def mkDateTime (y mo d h mi s : Nat) : Option DateTime :=
  if 1 ≤ mo ∧ mo ≤ 12 ∧ 1 ≤ d ∧ (d : Int) ≤ daysInMonth y mo ∧ h ≤ 23 ∧ mi ≤ 59 ∧ s ≤ 59
  then some ⟨y, mo, d, h, mi, s⟩
  else none

/-- Parse "YYYY-MM-DD" into year, month, day digit groups. -/
def parseDatePart (s : String) : Option (Nat × Nat × Nat) :=
  match s.splitOn "-" with
  | [ys, ms, ds] => do
      let y ← ys.toNat?
      let mo ← ms.toNat?
      let d ← ds.toNat?
      pure (y, mo, d)
  | _ => none

/-- Parse "HH:MM:SS" into hour, minute, second digit groups. -/
def parseTimePart (s : String) : Option (Nat × Nat × Nat) :=
  match s.splitOn ":" with
  | [hs, ms, ss] => do
      let h ← hs.toNat?
      let mi ← ms.toNat?
      let sec ← ss.toNat?
      pure (h, mi, sec)
  | _ => none

/-- strptime with format "%Y-%m-%d %I:%M:%S %p". -/
def parseTs12 (s : String) : Option DateTime :=
  match s.splitOn " " with
  | [dpart, tpart, ampm] => do
      let (y, mo, d) ← parseDatePart dpart
      let (h, mi, sec) ← parseTimePart tpart
      if h < 1 ∨ h > 12 then none
      else
        let h24 :=
          if ampm == "AM" then (if h == 12 then 0 else h)
          else if ampm == "PM" then (if h == 12 then 12 else h + 12)
          else 99
        if h24 == 99 then none else mkDateTime y mo d h24 mi sec
  | _ => none

/-- strptime with format "%Y-%m-%d %H:%M:%S". -/
def parseTs24 (s : String) : Option DateTime :=
  match s.splitOn " " with
  | [dpart, tpart] => do
      let (y, mo, d) ← parseDatePart dpart
      let (h, mi, sec) ← parseTimePart tpart
      mkDateTime y mo d h mi sec
  | _ => none

/-- parse_timestamp (lines 801-809): try the 12-hour format on the whole
string, then the 24-hour format on the part before the first dot. -/
def parse_timestamp (s : String) : Option DateTime :=
  match parseTs12 s with
  | some t => some t
  | none => parseTs24 ((s.splitOn ".").headD s)

/-- A mission record of the externally produced log.  Missing or null
fields carry the defaults the `.get` calls supply ("" / false / 0). -/
structure Mission where
  mission_id : String
  status : String
  is_delivery : Bool
  start_time : String
  total_distance_m : ℚ
  moving_time_sec : ℚ
  idle_time_sec : ℚ
  total_duration_sec : ℚ
  deriving DecidableEq, Repr

/-- A session record. -/
structure Session where
  session_duration_sec : ℚ
  deriving DecidableEq, Repr

/-- A brake event. -/
structure BrakeEvent where
  engaged : Bool
  timestamp : String
  deriving DecidableEq, Repr

/-- An emergency-stop event. -/
structure EmergencyEvent where
  active : Bool
  timestamp : String
  deriving DecidableEq, Repr

/-- A battery sample; `hasEvent` models presence of the "event" key. -/
structure BatterySample where
  voltage : ℚ
  hasEvent : Bool
  timestamp : String
  deriving DecidableEq, Repr

/-- The loaded robot-data log.  `truthy` is the Python truthiness of the
top-level parsed object (false for an empty JSON object), which the
endpoints and calculate_metrics test with `if not data`. -/
structure RobotData where
  truthy : Bool
  all_missions : List Mission
  sessions : List Session
  brake_events : List BrakeEvent
  emergency_events : List EmergencyEvent
  battery_samples : List BatterySample
  deriving DecidableEq, Repr

/-- The unique-mission filter of calculate_metrics (lines 888-894): keep
the first occurrence of each truthy mission_id, drop entries whose
mission_id is missing or empty. -/
def dedupMissionsAux (seen : List String) : List Mission → List Mission
  | [] => []
  | m :: rest =>
      if m.mission_id != "" && !(seen.contains m.mission_id) then
        m :: dedupMissionsAux (seen ++ [m.mission_id]) rest
      else dedupMissionsAux seen rest

/-- Missions collapsed by mission_id, first occurrence in log order. -/
def dedupMissions (missions : List Mission) : List Mission :=
  dedupMissionsAux [] missions

/-- The basic statistics of calculate_metrics (lines 896-904), computed
over the deduplicated mission list. -/
structure MissionAgg where
  total_missions : Nat
  completed_missions : Nat
  failed_missions : Nat
  total_deliveries : Nat
  total_distance : ℚ
  total_moving_time : ℚ
  total_idle_time : ℚ
  deriving DecidableEq, Repr

/-- Aggregate sums over the deduplicated missions. -/
def mission_agg (missions : List Mission) : MissionAgg :=
  let ml := dedupMissions missions
  { total_missions := ml.length
    completed_missions := ml.countP (fun m => m.status == "COMPLETED")
    failed_missions := ml.countP (fun m => m.status == "FAILED")
    total_deliveries := ml.countP (fun m => m.is_delivery)
    total_distance := (ml.map (fun m => m.total_distance_m)).sum
    total_moving_time := (ml.map (fun m => m.moving_time_sec)).sum
    total_idle_time := (ml.map (fun m => m.idle_time_sec)).sum }

/-- Whether a mission falls into bucket `h` of the hourly histogram: a
delivery with a truthy, parseable start time on or after the cutoff. -/
def hourlyPred (now : DateTime) (hours : Int) (h : Nat) (m : Mission) : Bool :=
  m.is_delivery && m.start_time != "" &&
  (match parse_timestamp m.start_time with
   | none => false
   | some t => decide (toSec t ≥ toSec now - hours * 3600) && t.hour == (h : Int))

/-- One bucket of the hourly histogram. -/
structure HourBucket where
  hour : Nat
  orders : Nat
  deriving DecidableEq, Repr

/-- calculate_hourly_orders (lines 812-842): count qualifying missions per
start hour, emitting all 24 buckets zero-filled. -/
def calculate_hourly_orders (missions : List Mission) (now : DateTime) (hours : Int) :
    List HourBucket :=
  (List.range 24).map (fun h => ⟨h, missions.countP (hourlyPred now hours h)⟩)

/-- The "%Y-%m-%d" date key of strftime (zero-padded). -/
def pad2 (n : Int) : String :=
  if 0 ≤ n ∧ n < 10 then "0" ++ toString n else toString n

/-- Zero-pad a year to four digits. -/
def pad4 (n : Int) : String :=
  if 0 ≤ n ∧ n < 10 then "000" ++ toString n
  else if 0 ≤ n ∧ n < 100 then "00" ++ toString n
  else if 0 ≤ n ∧ n < 1000 then "0" ++ toString n
  else toString n

/-- strftime "%Y-%m-%d". -/
def dateKey (t : DateTime) : String :=
  pad4 t.year ++ "-" ++ pad2 t.month ++ "-" ++ pad2 t.day

/-- strftime "%b". -/
def monthAbbr (m : Int) : String :=
  if m == 1 then "Jan" else if m == 2 then "Feb" else if m == 3 then "Mar"
  else if m == 4 then "Apr" else if m == 5 then "May" else if m == 6 then "Jun"
  else if m == 7 then "Jul" else if m == 8 then "Aug" else if m == 9 then "Sep"
  else if m == 10 then "Oct" else if m == 11 then "Nov" else if m == 12 then "Dec"
  else ""

/-- strftime "%b %d". -/
def dateLabel (t : DateTime) : String :=
  monthAbbr t.month ++ " " ++ pad2 t.day

/-- Whether a mission counts for the daily bucket keyed `key`: parseable
start time, within the last `days` days, same calendar date. -/
def dailyPred (now : DateTime) (days : Nat) (key : String) (m : Mission) : Bool :=
  m.start_time != "" &&
  (match parse_timestamp m.start_time with
   | none => false
   | some t => decide (deltaDays now t ≤ (days : Int)) && dateKey t == key)

/-- One bucket of the daily histogram. -/
structure DayBucket where
  date : String
  trips : Nat
  deriving DecidableEq, Repr

/-- calculate_daily_trips (lines 845-876): count qualifying missions per
calendar date and emit the last `days` days, oldest first, zero-filled. -/
def calculate_daily_trips (missions : List Mission) (now : DateTime) (days : Nat) :
    List DayBucket :=
  (List.range days).reverse.map (fun i =>
    ⟨dateLabel (subDays now i), missions.countP (dailyPred now days (dateKey (subDays now i)))⟩)

/-- Python round: round half to even. -/
def roundHalfEven (q : ℚ) : Int :=
  let f := ⌊q⌋
  let r := q - f
  if r < 1 / 2 then f
  else if 1 / 2 < r then f + 1
  else if f % 2 = 0 then f else f + 1

/-- Python `round(q, n)`. -/
def roundTo (q : ℚ) (n : Nat) : ℚ :=
  (roundHalfEven (q * 10 ^ n) : ℚ) / 10 ^ n

/-- Python `max(list, key=...)` keeps the first maximal element. -/
def pyMaxByOrders (l : List HourBucket) : Option HourBucket :=
  l.foldl (fun acc x =>
    match acc with
    | none => some x
    | some b => if b.orders < x.orders then some x else some b) none

/-- The dashboard metrics record returned by calculate_metrics. -/
structure Metrics where
  ordersPerHour : ℚ
  tripsPerDay : Nat
  robotUtilization : ℚ
  successRate : ℚ
  distanceCovered : ℚ
  avgRobotSpeed : ℚ
  peakBusyHour : Nat
  deriving DecidableEq, Repr

/-- calculate_metrics (lines 879-935): None on falsy data, else the
rounded dashboard metrics. -/
def calculate_metrics (now : DateTime) (data : RobotData) : Option Metrics :=
  if !data.truthy then none
  else
    let a := mission_agg data.all_missions
    let total_runtime :=
      if data.sessions.isEmpty then a.total_moving_time + a.total_idle_time
      else (data.sessions.map (fun s => s.session_duration_sec)).sum
    let success_rate :=
      if a.total_missions > 0 then (a.completed_missions : ℚ) / a.total_missions * 100 else 0
    let robot_utilization :=
      if total_runtime > 0 then a.total_moving_time / total_runtime * 100 else 0
    let orders_per_hour :=
      if total_runtime > 0 then (a.total_deliveries : ℚ) / total_runtime * 3600 else 0
    let avg_speed :=
      if a.total_moving_time > 0 then a.total_distance / a.total_moving_time else 0
    let hourly := calculate_hourly_orders data.all_missions now 24
    let peak_busy_hour := match pyMaxByOrders hourly with
      | some b => b.hour
      | none => 0
    let daily := calculate_daily_trips data.all_missions now 7
    let trips_per_day := match daily.getLast? with
      | some b => b.trips
      | none => 0
    some
      { ordersPerHour := roundTo orders_per_hour 1
        tripsPerDay := trips_per_day
        robotUtilization := roundTo robot_utilization 1
        successRate := roundTo success_rate 1
        distanceCovered := roundTo (a.total_distance / 1000) 2
        avgRobotSpeed := roundTo avg_speed 2
        peakBusyHour := peak_busy_hour }

/-- An entry of the error digest. -/
structure ErrorLog where
  etype : String
  severity : String
  count : Nat
  timestamp : String
  deriving DecidableEq, Repr

/-- Python `max(list, key=lambda x: x.get(tsField, ""), default=None)`:
first maximal element by raw string comparison of the timestamp. -/
def pyMaxByTs {α : Type} (ts : α → String) (l : List α) : Option α :=
  l.foldl (fun acc x =>
    match acc with
    | none => some x
    | some b => if ts b < ts x then some x else some b) none

/-- The latest timestamp of a list or, when Python would fall back to
`datetime.now().isoformat()` on the (unreachable) empty case, `nowIso`. -/
def latestTs {α : Type} (ts : α → String) (l : List α) (nowIso : String) : String :=
  match pyMaxByTs ts l with
  | some e => ts e
  | none => nowIso

/-- Substring test of Python's `needle in hay`. -/
def listHasInfix (needle : List Char) : List Char → Bool
  | [] => needle.isEmpty
  | c :: rest => needle.isPrefixOf (c :: rest) || listHasInfix needle rest

/-- Python `needle in hay` on strings. -/
def strContainsSub (hay needle : String) : Bool :=
  listHasInfix needle.data hay.data

/-- Python `str.lower()` on ASCII content, character by character. -/
def pyLower (s : String) : String := ⟨s.data.map Char.toLower⟩

/-- The goal-failure filter of get_error_logs (line 988): failed status
that also contains "goal" in lowercase. -/
def goalFailurePred (m : Mission) : Bool :=
  m.status == "FAILED" && strContainsSub (pyLower m.status) "goal"

/-- The brake entry of the digest (lines 946-958). -/
def brakeLogPart (data : RobotData) (nowIso : String) : List ErrorLog :=
  if (data.brake_events.filter (fun e => e.engaged)).length > 0 then
    [⟨"Break Engage & Disengaged", "medium",
      (data.brake_events.filter (fun e => e.engaged)).length +
        data.brake_events.countP (fun e => !e.engaged),
      latestTs (fun e => e.timestamp) (data.brake_events.filter (fun e => e.engaged)) nowIso⟩]
  else []

/-- The emergency-stop entry of the digest (lines 961-972). -/
def emergencyLogPart (data : RobotData) (nowIso : String) : List ErrorLog :=
  if (data.emergency_events.filter (fun e => e.active)).length > 0 then
    [⟨"Emergency Break Occurrence", "high",
      (data.emergency_events.filter (fun e => e.active)).length,
      latestTs (fun e => e.timestamp) (data.emergency_events.filter (fun e => e.active)) nowIso⟩]
  else []

/-- The mission-failure entry of the digest (lines 975-985). -/
def missionFailLogPart (data : RobotData) (nowIso : String) : List ErrorLog :=
  if !(data.all_missions.filter (fun m => m.status == "FAILED")).isEmpty then
    [⟨"Mission Fail", "high",
      (data.all_missions.filter (fun m => m.status == "FAILED")).length,
      latestTs (fun m => m.start_time)
        (data.all_missions.filter (fun m => m.status == "FAILED")) nowIso⟩]
  else []

/-- The goal-failure entry of the digest (lines 987-996). -/
def goalFailLogPart (data : RobotData) (nowIso : String) : List ErrorLog :=
  if !(data.all_missions.filter goalFailurePred).isEmpty then
    [⟨"Goal Fail", "high", (data.all_missions.filter goalFailurePred).length,
      latestTs (fun m => m.start_time) (data.all_missions.filter goalFailurePred) nowIso⟩]
  else []

/-- The low-battery entry of the digest (lines 998-1009). -/
def batteryLogPart (data : RobotData) (nowIso : String) : List ErrorLog :=
  if !(data.battery_samples.filter (fun s => s.hasEvent || s.voltage < 20)).isEmpty then
    [⟨"Battery Hit 20% Threshold", "medium",
      (data.battery_samples.filter (fun s => s.hasEvent || s.voltage < 20)).length,
      latestTs (fun s => s.timestamp)
        (data.battery_samples.filter (fun s => s.hasEvent || s.voltage < 20)) nowIso⟩]
  else []

/-- The navigation-timeout entry of the digest (lines 1011-1020). -/
def timeoutLogPart (data : RobotData) (nowIso : String) : List ErrorLog :=
  if !(data.all_missions.filter (fun m => m.total_duration_sec > 1800)).isEmpty then
    [⟨"Navigation Timeout", "low",
      (data.all_missions.filter (fun m => m.total_duration_sec > 1800)).length,
      latestTs (fun m => m.start_time)
        (data.all_missions.filter (fun m => m.total_duration_sec > 1800)) nowIso⟩]
  else []

/-- get_error_logs (lines 938-1025): the digest entries, in evaluation
order, each present only when its category has occurrences. -/
def get_error_logs (data : RobotData) (nowIso : String) : List ErrorLog :=
  if !data.truthy then []
  else
    brakeLogPart data nowIso ++ emergencyLogPart data nowIso ++
    missionFailLogPart data nowIso ++ goalFailLogPart data nowIso ++
    batteryLogPart data nowIso ++ timeoutLogPart data nowIso

/-- The /robot-logs/metrics endpoint (lines 1028-1050): 404 when the log
is absent or the parsed object is falsy, 500 when metrics are falsy. -/
def get_robot_logs_metrics (data : Option RobotData) (now : DateTime) :
    Except ApiError Metrics :=
  match data with
  | none => .error ⟨404, .robotDataNotFound⟩
  | some d =>
      if !d.truthy then .error ⟨404, .robotDataNotFound⟩
      else
        match calculate_metrics now d with
        | none => .error ⟨500, .metricsCalcFailed⟩
        | some m => .ok m

/-- The Mission Fail entry count of the digest, when present. -/
def missionFailCount (data : RobotData) (nowIso : String) : Option Nat :=
  ((get_error_logs data nowIso).find? (fun e => e.etype == "Mission Fail")).map
    (fun e => e.count)

/-! Theorems -/

set_option maxRecDepth 8000

theorem goalFailurePred_false (m : Mission) : goalFailurePred m = false := by
  unfold goalFailurePred
  by_cases h : m.status = "FAILED"
  · rw [h]
    decide
  · simp [h]

theorem goalFailLogPart_nil (data : RobotData) (nowIso : String) :
    goalFailLogPart data nowIso = [] := by
  have h : data.all_missions.filter goalFailurePred = [] :=
    List.filter_eq_nil_iff.mpr (fun m _ => by simp [goalFailurePred_false])
  unfold goalFailLogPart
  rw [h]
  simp

theorem filter_cond_singleton {c : Prop} [Decidable c] (e : ErrorLog) (p : ErrorLog → Bool)
    (h : p e = false) : (if c then [e] else ([] : List ErrorLog)).filter p = [] := by
  split <;> simp [h]

theorem brakeLogPart_no_goal (d : RobotData) (n : String) :
    (brakeLogPart d n).filter (fun e => e.etype == "Goal Fail") = [] := by
  unfold brakeLogPart
  exact filter_cond_singleton _ _ rfl

theorem emergencyLogPart_no_goal (d : RobotData) (n : String) :
    (emergencyLogPart d n).filter (fun e => e.etype == "Goal Fail") = [] := by
  unfold emergencyLogPart
  exact filter_cond_singleton _ _ rfl

theorem missionFailLogPart_no_goal (d : RobotData) (n : String) :
    (missionFailLogPart d n).filter (fun e => e.etype == "Goal Fail") = [] := by
  unfold missionFailLogPart
  exact filter_cond_singleton _ _ rfl

theorem batteryLogPart_no_goal (d : RobotData) (n : String) :
    (batteryLogPart d n).filter (fun e => e.etype == "Goal Fail") = [] := by
  unfold batteryLogPart
  exact filter_cond_singleton _ _ rfl

theorem timeoutLogPart_no_goal (d : RobotData) (n : String) :
    (timeoutLogPart d n).filter (fun e => e.etype == "Goal Fail") = [] := by
  unfold timeoutLogPart
  exact filter_cond_singleton _ _ rfl

/-- C2: no dataset can ever produce a goal-failure digest entry, because
the filter demands a status equal to "FAILED" that simultaneously contains
"goal" in lowercase — an unsatisfiable condition; in particular a mission
that failed to reach its goal with status "FAILED: goal unreachable"
yields an empty digest (it is not even counted as a Mission Fail). -/
theorem goal_failure_entry_never_emitted :
    (∀ (data : RobotData) (nowIso : String),
        (get_error_logs data nowIso).filter (fun e => e.etype == "Goal Fail") = []) ∧
    get_error_logs
      ⟨true, [⟨"m7", "FAILED: goal unreachable", false, "2024-01-01 10:00:00", 0, 0, 0, 0⟩],
        [], [], [], []⟩ "2024-01-02T00:00:00" = [] := by
  constructor
  · intro data nowIso
    unfold get_error_logs
    split
    · simp
    · rw [goalFailLogPart_nil]
      simp only [List.filter_append, brakeLogPart_no_goal, emergencyLogPart_no_goal,
        missionFailLogPart_no_goal, batteryLogPart_no_goal, timeoutLogPart_no_goal,
        List.filter_nil, List.append_nil, List.nil_append]
  · decide

/-- C8: configure_tables rejects a table count below 1 or above 100 with a
400 invalid-argument error before generating anything, leaving both stored
mappings unchanged. -/
theorem configure_tables_out_of_range (n : Int) (rng : Rng) (tokFile pinFile : Mapping) :
    (n < 1 → configure_tables n rng tokFile pinFile
        = (tokFile, pinFile, .error ⟨400, .totalTablesMin⟩)) ∧
    (n > 100 → configure_tables n rng tokFile pinFile
        = (tokFile, pinFile, .error ⟨400, .totalTablesMax⟩)) := by
  constructor
  · intro h
    unfold configure_tables
    simp [h]
  · intro h
    have h1 : ¬ n < 1 := by omega
    unfold configure_tables
    simp [h1, h]

/-- A fixed random source for concrete provisioning calls. -/
def trivRng : Rng := ⟨fun _ => "0123456789abcdef", fun _ _ => 1234, fun _ => "abcd1234"⟩

theorem configure_tables_out_of_range_witness :
    configure_tables 0 trivRng [("t", 1)] [("1234", 1)]
        = ([("t", 1)], [("1234", 1)], .error ⟨400, .totalTablesMin⟩) ∧
    configure_tables 101 trivRng [("t", 1)] [("1234", 1)]
        = ([("t", 1)], [("1234", 1)], .error ⟨400, .totalTablesMax⟩) :=
  ⟨(configure_tables_out_of_range 0 trivRng _ _).1 (by decide),
   (configure_tables_out_of_range 101 trivRng _ _).2 (by decide)⟩

/-- C10: update_order_status validates the status before looking up the
order, so an absent order_id combined with a status outside the valid set
fails with the 400 invalid-status error, not the 404 not-found error. -/
theorem update_order_status_validates_status_first (orders : List Order)
    (order_id new_status : String)
    (h1 : valid_statuses.contains new_status = false)
    (h2 : orders.all (fun o => o.order_id != order_id) = true) :
    update_order_status orders order_id new_status
      = (orders, .error ⟨400, .invalidStatus⟩) := by
  have hcond : ¬ (valid_statuses.contains new_status = true) := by
    rw [h1]
    exact Bool.false_ne_true
  unfold update_order_status
  rw [if_pos hcond]

theorem update_order_status_validates_status_first_witness :
    update_order_status [⟨"a", 1, [], 0, some "2024", "pending"⟩] "zz" "bogus"
      = ([⟨"a", 1, [], 0, some "2024", "pending"⟩], .error ⟨400, .invalidStatus⟩) :=
  update_order_status_validates_status_first _ "zz" "bogus" (by decide) (by decide)

/-- The duplicated FAILED mission of the C1 counterexample. -/
def c1DupMission : Mission := ⟨"m1", "FAILED", false, "", 0, 0, 0, 0⟩

/-- A dataset logging the same mission twice. -/
def c1DupData : RobotData := ⟨true, [c1DupMission, c1DupMission], [], [], [], []⟩

/-- C1 counterexample: the same FAILED mission logged twice under
mission_id "m1" gives a Mission Fail digest count of 2, not the count 1 of
the deduplicated mission set — the error digest is not deduplicated. -/
theorem error_digest_counts_duplicates :
    ¬ (missionFailCount c1DupData "2024-01-01T00:00:00"
        = some ((dedupMissions c1DupData.all_missions).countP
            (fun m => m.status == "FAILED"))) := by
  decide

/-- C6 counterexample: a table owned by the empty-string token escapes the
conflict check of create_table_mapping (Python truthiness of the found
token), so a second token for table 5 is accepted and the injectivity
invariant is broken. -/
theorem create_table_mapping_empty_token_conflict_missed :
    injectiveMapping [("", 5)] ∧
    (create_table_mapping [("", 5)] "x" 5).2 = .ok () ∧
    ¬ injectiveMapping (create_table_mapping [("", 5)] "x" 5).1 := by
  refine ⟨by decide, rfl, by decide⟩

/-- A present log whose top-level JSON object is empty. -/
def emptyObjectLog : RobotData := ⟨false, [], [], [], [], []⟩

/-- C7 counterexample: a present log parsing to an empty JSON object — an
empty dataset — makes the metrics endpoint return the 404 error rather
than zero-valued metrics, because `if not data` conflates it with a
missing file. -/
theorem empty_object_log_yields_error :
    get_robot_logs_metrics (some emptyObjectLog) ⟨2024, 1, 1, 0, 0, 0⟩
      = .error ⟨404, .robotDataNotFound⟩ := by
  rfl

/-- A random source whose pin draws all collide and whose fallback uuid
begins with the already-used hex digits 1000. -/
def collideRng : Rng := ⟨fun _ => "aaaaaaaaaaaaaaaa", fun _ _ => 1000, fun _ => "1000abcdefab"⟩

/-- C4 counterexample: when every draw for the second table returns the
already-taken PIN 1000 and the unchecked uuid fallback also starts with
1000, provisioning two tables succeeds yet the PIN mapping holds a single
entry — per-pass PIN uniqueness is not guaranteed, only probable. -/
theorem provisioning_pin_collision :
    (configure_tables 2 collideRng [] []).2.2 = .ok () ∧
    ¬ ((configure_tables 2 collideRng [] []).2.1.length = 2) := by
  refine ⟨rfl, by decide⟩

theorem get_orders_eq (orders : List Order) (t : Option Int) (s : Option String) :
    get_orders orders t s
      = (orders.filter (matchesFilters t s)).mergeSort
          (fun a b => order_ts b ≤ order_ts a) := by
  unfold get_orders matchesFilters
  cases t <;> cases s <;> simp [List.filter_filter, Bool.and_comm]

/-- C9: get_orders returns exactly the orders matching the AND-combined
equality filters (as a permutation), pairwise sorted by the timestamp
string in descending order, an order with no timestamp keyed by the empty
string (hence sorted lowest). -/
theorem get_orders_spec (orders : List Order) (t : Option Int) (s : Option String) :
    (get_orders orders t s).Perm (orders.filter (matchesFilters t s)) ∧
    (get_orders orders t s).Pairwise (fun a b => order_ts b ≤ order_ts a) ∧
    ∀ o ∈ get_orders orders t s, o.timestamp = none → order_ts o = "" := by
  refine ⟨?_, ?_, ?_⟩
  · rw [get_orders_eq]
    exact List.mergeSort_perm _ _
  · rw [get_orders_eq]
    refine List.Pairwise.imp (fun h => by simpa using h)
      (List.sorted_mergeSort ?_ ?_ (orders.filter (matchesFilters t s)))
    · intro a b c h1 h2
      simp only [decide_eq_true_eq] at h1 h2 ⊢
      exact le_trans h2 h1
    · intro a b
      simp only [Bool.or_eq_true, decide_eq_true_eq]
      exact le_total (order_ts b) (order_ts a)
  · intro o _ h
    simp [order_ts, h]

/-- C3: create_order always succeeds, appends exactly one order carrying
the pydantic-default status "pending" to the store, and an unfiltered
get_orders of the saved store contains the new pending order. -/
theorem create_order_spec (orders : List Order) (new_uuid : String) (tn : Int)
    (items : List OrderItem) (total : Int) (ts : String) :
    (create_order orders new_uuid (mkOrderCreate tn items total ts)).1
        = orders ++ [⟨new_uuid, tn, items, total, some ts, "pending"⟩] ∧
    (create_order orders new_uuid (mkOrderCreate tn items total ts)).2 = new_uuid ∧
    (⟨new_uuid, tn, items, total, some ts, "pending"⟩ : Order).status = "pending" ∧
    (⟨new_uuid, tn, items, total, some ts, "pending"⟩ : Order)
        ∈ get_orders (create_order orders new_uuid (mkOrderCreate tn items total ts)).1
            none none := by
  refine ⟨rfl, rfl, rfl, ?_⟩
  rw [get_orders_eq]
  simp [matchesFilters, create_order, mkOrderCreate]

theorem updateFirst_decomp (pre : List Order) (o : Order) (post : List Order)
    (oid s : String) (hpre : ∀ p ∈ pre, p.order_id ≠ oid) (ho : o.order_id = oid) :
    updateFirst (pre ++ o :: post) oid s = pre ++ ({ o with status := s }) :: post := by
  induction pre with
  | nil => simp [updateFirst, ho]
  | cons p rest ih =>
      simp only [List.cons_append, updateFirst]
      rw [if_neg (by simpa using hpre p (by simp))]
      exact congrArg (fun l => p :: l) (ih (fun q hq => hpre q (by simp [hq])))

theorem find?_first_id (pre : List Order) (o : Order) (post : List Order) (oid : String)
    (hpre : ∀ p ∈ pre, p.order_id ≠ oid) (ho : o.order_id = oid) :
    (pre ++ o :: post).find? (fun x => x.order_id == oid) = some o := by
  induction pre with
  | nil => simp [ho]
  | cons p rest ih =>
      rw [List.cons_append, List.find?_cons_of_neg _ (by simpa using hpre p (by simp))]
      exact ih (fun q hq => hpre q (by simp [hq]))

/-- C5: update_order_status rejects an invalid status with 400 and an
absent order id (under a valid status) with 404, each time returning the
collection unchanged; on success it persists the collection with only the
status field of the first matching order overwritten, every other order
untouched, and returns that updated order. -/
theorem update_order_status_spec (orders : List Order) (oid new_status : String) :
    (valid_statuses.contains new_status = false →
        update_order_status orders oid new_status
          = (orders, .error ⟨400, .invalidStatus⟩)) ∧
    (valid_statuses.contains new_status = true →
      (∀ o ∈ orders, o.order_id ≠ oid) →
        update_order_status orders oid new_status
          = (orders, .error ⟨404, .orderNotFound⟩)) ∧
    (valid_statuses.contains new_status = true →
      ∀ pre o post, orders = pre ++ o :: post → o.order_id = oid →
        (∀ p ∈ pre, p.order_id ≠ oid) →
        update_order_status orders oid new_status
          = (pre ++ ({ o with status := new_status }) :: post,
             .ok (some ({ o with status := new_status })))) := by
  refine ⟨?_, ?_, ?_⟩
  · intro h
    have hcond : ¬ (valid_statuses.contains new_status = true) := by
      rw [h]
      exact Bool.false_ne_true
    unfold update_order_status
    rw [if_pos hcond]
  · intro h h2
    have hcond : ¬ ¬ (valid_statuses.contains new_status = true) := by
      rw [h]
      simp
    have hany : ¬ (orders.any (fun o => o.order_id == oid) = true) := by
      simp only [List.any_eq_true]
      rintro ⟨o, ho, hb⟩
      exact h2 o ho (by simpa using hb)
    unfold update_order_status
    rw [if_neg hcond, if_neg hany]
  · intro h pre o post hdec ho hpre
    have hcond : ¬ ¬ (valid_statuses.contains new_status = true) := by
      rw [h]
      simp
    have hany : orders.any (fun o => o.order_id == oid) = true := by
      rw [hdec]
      simp only [List.any_eq_true]
      exact ⟨o, by simp, by simp [ho]⟩
    unfold update_order_status
    rw [if_neg hcond, if_pos hany, hdec,
      updateFirst_decomp pre o post oid new_status hpre ho,
      find?_first_id pre ({ o with status := new_status }) post oid hpre (by simpa using ho)]

theorem update_order_status_spec_witness :
    update_order_status [⟨"a", 1, [], 0, some "t", "pending"⟩] "a" "bogus"
        = ([⟨"a", 1, [], 0, some "t", "pending"⟩], .error ⟨400, .invalidStatus⟩) ∧
    update_order_status [⟨"a", 1, [], 0, some "t", "pending"⟩] "zz" "ready"
        = ([⟨"a", 1, [], 0, some "t", "pending"⟩], .error ⟨404, .orderNotFound⟩) ∧
    update_order_status [⟨"a", 1, [], 0, some "t", "pending"⟩] "a" "ready"
        = ([⟨"a", 1, [], 0, some "t", "ready"⟩],
           .ok (some ⟨"a", 1, [], 0, some "t", "ready"⟩)) :=
  ⟨(update_order_status_spec _ "a" "bogus").1 (by decide),
   (update_order_status_spec _ "zz" "ready").2.1 (by decide) (by decide),
   (update_order_status_spec _ "a" "ready").2.2 (by decide)
     [] ⟨"a", 1, [], 0, some "t", "pending"⟩ [] rfl rfl (by decide)⟩

theorem roundTo_zero (n : Nat) : roundTo 0 n = 0 := by
  unfold roundTo roundHalfEven
  norm_num

theorem pyMaxByOrders_zero :
    pyMaxByOrders ((List.range 24).map (fun h => ⟨h, 0⟩)) = some ⟨0, 0⟩ := by
  decide

theorem calculate_daily_trips_nil (now : DateTime) :
    calculate_daily_trips [] now 7
      = (List.range 7).reverse.map (fun i => ⟨dateLabel (subDays now i), 0⟩) := by
  unfold calculate_daily_trips
  simp

theorem getLast?_daily_nil (now : DateTime) :
    (calculate_daily_trips [] now 7).getLast? = some ⟨dateLabel (subDays now 0), 0⟩ := by
  rw [calculate_daily_trips_nil]
  rfl

theorem calculate_metrics_empty (d : RobotData) (now : DateTime) (ht : d.truthy = true)
    (hm : d.all_missions = []) (hs : d.sessions = []) :
    calculate_metrics now d = some ⟨0, 0, 0, 0, 0, 0, 0⟩ := by
  unfold calculate_metrics calculate_hourly_orders
  rw [ht, hm, hs]
  simp only [Bool.not_true, Bool.false_eq_true, if_false, List.countP_nil,
    pyMaxByOrders_zero, getLast?_daily_nil]
  simp [mission_agg, dedupMissions, dedupMissionsAux, roundTo_zero]

/-- C7: when the mission log file is absent the metrics endpoint fails
with the 404 not-found signal; when the log is present and its dataset is
empty (truthy object, no missions, no sessions) the computation succeeds
with all-zero metrics instead of an error. -/
theorem robot_metrics_missing_vs_empty :
    (∀ now, get_robot_logs_metrics none now = .error ⟨404, .robotDataNotFound⟩) ∧
    (∀ (d : RobotData) (now : DateTime), d.truthy = true → d.all_missions = [] →
      d.sessions = [] →
      get_robot_logs_metrics (some d) now = .ok ⟨0, 0, 0, 0, 0, 0, 0⟩) := by
  constructor
  · intro now
    rfl
  · intro d now ht hm hs
    unfold get_robot_logs_metrics
    simp only [ht, Bool.not_true, Bool.false_eq_true, if_false,
      calculate_metrics_empty d now ht hm hs]

theorem robot_metrics_missing_vs_empty_witness :
    get_robot_logs_metrics none ⟨2024, 1, 1, 0, 0, 0⟩
        = .error ⟨404, .robotDataNotFound⟩ ∧
    get_robot_logs_metrics (some ⟨true, [], [], [], [], []⟩) ⟨2024, 1, 1, 0, 0, 0⟩
        = .ok ⟨0, 0, 0, 0, 0, 0, 0⟩ :=
  ⟨robot_metrics_missing_vs_empty.1 _,
   robot_metrics_missing_vs_empty.2 ⟨true, [], [], [], [], []⟩ _ rfl rfl rfl⟩

theorem dedupMissionsAux_append_dup (ms : List Mission) (extra : Mission)
    (hne : extra.mission_id ≠ "") :
    ∀ seen : List String,
      extra.mission_id ∈ seen ∨ extra.mission_id ∈ ms.map (fun m => m.mission_id) →
      dedupMissionsAux seen (ms ++ [extra]) = dedupMissionsAux seen ms := by
  induction ms with
  | nil =>
      intro seen hmem
      rcases hmem with h | h
      · rw [List.nil_append]
        unfold dedupMissionsAux
        rw [if_neg (by simp [h])]
        rfl
      · simp at h
  | cons m rest ih =>
      intro seen hmem
      simp only [List.cons_append]
      unfold dedupMissionsAux
      by_cases hc : (m.mission_id != "" && !(seen.contains m.mission_id)) = true
      · rw [if_pos hc, if_pos hc]
        refine congrArg (fun l => m :: l) (ih (seen ++ [m.mission_id]) ?_)
        rcases hmem with h | h
        · exact Or.inl (by simp [h])
        · simp only [List.map_cons, List.mem_cons] at h
          rcases h with h | h
          · exact Or.inl (by simp [h])
          · exact Or.inr h
      · rw [if_neg hc, if_neg hc]
        refine ih seen ?_
        rcases hmem with h | h
        · exact Or.inl h
        · simp only [List.map_cons, List.mem_cons] at h
          rcases h with h | h
          · simp only [Bool.and_eq_true, bne_iff_ne, ne_eq, Bool.not_eq_true', not_and,
              Bool.not_eq_false] at hc
            rw [h] at hne
            exact Or.inl (by simpa [h] using List.contains_iff_exists_mem_beq.mp (hc hne))
          · exact Or.inr h

theorem dedupMissions_append_dup (ms : List Mission) (extra : Mission)
    (hne : extra.mission_id ≠ "")
    (hmem : extra.mission_id ∈ ms.map (fun m => m.mission_id)) :
    dedupMissions (ms ++ [extra]) = dedupMissions ms :=
  dedupMissionsAux_append_dup ms extra hne [] (Or.inr hmem)

theorem find?_cond_singleton_none {c : Prop} [Decidable c] (e : ErrorLog)
    (p : ErrorLog → Bool) (h : p e = false) :
    (if c then [e] else ([] : List ErrorLog)).find? p = none := by
  split <;> simp [h]

theorem brakeLogPart_find?_missionFail (d : RobotData) (n : String) :
    (brakeLogPart d n).find? (fun e => e.etype == "Mission Fail") = none := by
  unfold brakeLogPart
  exact find?_cond_singleton_none _ _ rfl

theorem emergencyLogPart_find?_missionFail (d : RobotData) (n : String) :
    (emergencyLogPart d n).find? (fun e => e.etype == "Mission Fail") = none := by
  unfold emergencyLogPart
  exact find?_cond_singleton_none _ _ rfl

/-- C1 (amended): entries sharing a mission_id collapse to the first
occurrence for total_missions and the derived sums (distance, moving time,
idle time, delivery count), but the hourly and daily histograms and the
error-digest counts are computed over the raw mission list, so an appended
duplicate still increments each bucket it qualifies for and the Mission
Fail digest count. -/
theorem mission_dedup_scope (ms : List Mission) (extra : Mission) (now : DateTime)
    (hours : Int) (days : Nat) (nowIso : String) (sess : List Session)
    (brs : List BrakeEvent) (ems : List EmergencyEvent) (bats : List BatterySample) :
    (extra.mission_id ≠ "" → extra.mission_id ∈ ms.map (fun m => m.mission_id) →
        mission_agg (ms ++ [extra]) = mission_agg ms) ∧
    (calculate_hourly_orders (ms ++ [extra]) now hours
        = (List.range 24).map (fun h =>
            ⟨h, ms.countP (hourlyPred now hours h)
              + (if hourlyPred now hours h extra then 1 else 0)⟩)) ∧
    (calculate_daily_trips (ms ++ [extra]) now days
        = (List.range days).reverse.map (fun i =>
            ⟨dateLabel (subDays now i),
              ms.countP (dailyPred now days (dateKey (subDays now i)))
                + (if dailyPred now days (dateKey (subDays now i)) extra then 1 else 0)⟩)) ∧
    (extra.status = "FAILED" →
        missionFailCount ⟨true, ms ++ [extra], sess, brs, ems, bats⟩ nowIso
          = some (ms.countP (fun m => m.status == "FAILED") + 1)) := by
  refine ⟨?_, ?_, ?_, ?_⟩
  · intro hne hmem
    unfold mission_agg
    rw [dedupMissions_append_dup ms extra hne hmem]
  · unfold calculate_hourly_orders
    congr 1
    funext h
    simp [List.countP_append, List.countP_cons]
  · unfold calculate_daily_trips
    congr 1
    funext i
    simp [List.countP_append, List.countP_cons]
  · intro hfail
    have hx : (extra.status == "FAILED") = true := by simp [hfail]
    have hfilt : (ms ++ [extra]).filter (fun m => m.status == "FAILED")
        = ms.filter (fun m => m.status == "FAILED") ++ [extra] := by
      rw [List.filter_append]
      simp [hx]
    unfold missionFailCount get_error_logs
    dsimp only
    simp only [Bool.not_true, Bool.false_eq_true, if_false]
    simp only [List.find?_append, brakeLogPart_find?_missionFail,
      emergencyLogPart_find?_missionFail, Option.none_or]
    unfold missionFailLogPart
    dsimp only
    rw [hfilt]
    rw [if_pos (by simp)]
    rw [List.find?_cons_of_pos _ rfl]
    simp [List.countP_eq_length_filter]

theorem mission_dedup_scope_witness :
    mission_agg ([⟨"m1", "FAILED", true, "", 2, 3, 4, 5⟩]
        ++ [⟨"m1", "FAILED", true, "", 2, 3, 4, 5⟩])
      = mission_agg [⟨"m1", "FAILED", true, "", 2, 3, 4, 5⟩] ∧
    missionFailCount
        ⟨true, [⟨"m1", "FAILED", true, "", 2, 3, 4, 5⟩]
            ++ [⟨"m1", "FAILED", true, "", 2, 3, 4, 5⟩], [], [], [], []⟩ "2024"
      = some ((([⟨"m1", "FAILED", true, "", 2, 3, 4, 5⟩] : List Mission)).countP
          (fun m => m.status == "FAILED") + 1) :=
  ⟨(mission_dedup_scope [⟨"m1", "FAILED", true, "", 2, 3, 4, 5⟩]
      ⟨"m1", "FAILED", true, "", 2, 3, 4, 5⟩ ⟨2024, 1, 1, 0, 0, 0⟩ 24 7 "2024"
      [] [] [] []).1 (by decide) (by decide),
   (mission_dedup_scope [⟨"m1", "FAILED", true, "", 2, 3, 4, 5⟩]
      ⟨"m1", "FAILED", true, "", 2, 3, 4, 5⟩ ⟨2024, 1, 1, 0, 0, 0⟩ 24 7 "2024"
      [] [] [] []).2.2.2 rfl⟩

theorem takeWhile_append_stop (A rest : List Char)
    (hA : ∀ c ∈ A, (c != '_') = true) :
    (A ++ '_' :: rest).takeWhile (fun c => c != '_') = A := by
  induction A with
  | nil => simp [List.takeWhile_cons]
  | cons a A2 ih =>
      simp only [List.cons_append, List.takeWhile_cons]
      rw [if_pos (hA a (by simp))]
      rw [ih (fun c hc => hA c (by simp [hc]))]

/-- The table-number segment of a generated token: the characters between
the "table" prefix and the first underscore. -/
def tokenTablePart (s : String) : List Char :=
  (s.data.drop 5).takeWhile (fun c => c != '_')

theorem repr_no_underscore :
    ∀ t ∈ List.range 101, ∀ c ∈ (Nat.repr t).data, (c != '_') = true := by decide

theorem repr_inj_le_100 :
    ∀ a ∈ List.range 101, ∀ b ∈ List.range 101, Nat.repr a = Nat.repr b → a = b := by decide

theorem token_extract (a : Nat) (u : String) (ha : a < 101) :
    tokenTablePart (generate_table_token a u) = (Nat.repr a).data := by
  unfold tokenTablePart generate_table_token
  rw [show (toString a : String) = Nat.repr a from rfl]
  have hd : ("table" ++ Nat.repr a ++ "_token_" ++ u.take 12).data
      = "table".data ++ ((Nat.repr a).data ++ ('_' :: ("token_".data ++ (u.take 12).data))) := by
    simp only [String.data_append, List.append_assoc]
    rfl
  rw [hd, List.drop_left' (show ("table".data : List Char).length = 5 from rfl)]
  exact takeWhile_append_stop _ _ (repr_no_underscore a (List.mem_range.mpr ha))

theorem generate_table_token_inj (a b : Nat) (ha : a < 101) (hb : b < 101)
    (u v : String) (h : generate_table_token a u = generate_table_token b v) : a = b := by
  have e1 := token_extract a u ha
  rw [h, token_extract b v hb] at e1
  exact (repr_inj_le_100 b (List.mem_range.mpr hb) a (List.mem_range.mpr ha)
    (String.ext e1)).symm

theorem provisionLoop_succ (rng : Rng) (k : Nat) :
    provisionLoop rng (k + 1) = provisionStep rng (provisionLoop rng k) k := by
  unfold provisionLoop
  rw [List.range_succ, List.foldl_append]
  rfl

theorem dictInsert_append (m : Mapping) (k : String) (v : Int)
    (h : mapHasKey m k = false) : dictInsert m k v = m ++ [(k, v)] := by
  unfold dictInsert
  simp [h]

theorem provisionLoop_tok (rng : Rng) :
    ∀ n, n ≤ 100 →
      (provisionLoop rng n).tok
        = (List.range n).map (fun i =>
            (generate_table_token (i + 1) (rng.tokenUuid i), (i : Int) + 1)) := by
  intro n
  induction n with
  | zero => intro _; rfl
  | succ k ih =>
      intro hn
      rw [provisionLoop_succ]
      unfold provisionStep
      dsimp only
      rw [ih (by omega)]
      rw [dictInsert_append _ _ _ ?_]
      · rw [List.range_succ, List.map_append]
        rfl
      · unfold mapHasKey
        rw [List.any_eq_false]
        intro p hp
        simp only [List.mem_map, List.mem_range] at hp
        obtain ⟨i, hi, rfl⟩ := hp
        simp only [beq_iff_eq]
        intro he
        have := generate_table_token_inj (i + 1) (k + 1) (by omega) (by omega) _ _ he
        omega

theorem fst_replace (p : String × Int) (k : String) (v : Int) :
    (if p.1 == k then (k, v) else p).1 = p.1 := by
  by_cases hc : (p.1 == k) = true
  · rw [if_pos hc]
    exact (eq_of_beq hc).symm
  · rw [if_neg hc]

theorem mapKeys_replace (m : Mapping) (k : String) (v : Int) :
    mapKeys (m.map (fun p => if p.1 == k then (k, v) else p)) = mapKeys m := by
  unfold mapKeys
  rw [List.map_map]
  exact List.map_congr_left (fun p _ => fst_replace p k v)

theorem replace_map_id (m : Mapping) (k : String) (v : Int)
    (h : ∀ p ∈ m, p.1 ≠ k) :
    m.map (fun p => if p.1 == k then (k, v) else p) = m := by
  induction m with
  | nil => rfl
  | cons p rest ih =>
      simp only [List.map_cons]
      rw [if_neg (by simpa using h p (by simp)), ih (fun q hq => h q (by simp [hq]))]

theorem vals_replace_subset (m : Mapping) (k : String) (v : Int) :
    ∀ x ∈ mapVals (m.map (fun p => if p.1 == k then (k, v) else p)),
      x ∈ mapVals m ∨ x = v := by
  intro x hx
  unfold mapVals at hx ⊢
  rw [List.map_map] at hx
  simp only [List.mem_map, Function.comp] at hx
  obtain ⟨p, hp, hpx⟩ := hx
  by_cases hc : (p.1 == k) = true
  · rw [if_pos hc] at hpx
    exact Or.inr hpx.symm
  · rw [if_neg hc] at hpx
    exact Or.inl (by simp only [List.mem_map]; exact ⟨p, hp, hpx⟩)

theorem valsNodup_replace (m : Mapping) (k : String) (v : Int)
    (hkeys : (mapKeys m).Nodup) (hvals : (mapVals m).Nodup)
    (hfresh : ∀ p ∈ m, p.1 ≠ k → p.2 ≠ v) :
    (mapVals (m.map (fun p => if p.1 == k then (k, v) else p))).Nodup := by
  induction m with
  | nil => simp [mapVals]
  | cons p rest ih =>
      unfold mapKeys at hkeys
      unfold mapVals at hvals ⊢
      simp only [List.map_cons, List.nodup_cons] at hkeys hvals
      by_cases hc : (p.1 == k) = true
      · have hrest : ∀ q ∈ rest, q.1 ≠ k := by
          intro q hq he
          apply hkeys.1
          rw [eq_of_beq hc, ← he]
          exact List.mem_map.mpr ⟨q, hq, rfl⟩
        simp only [List.map_cons]
        rw [if_pos hc, replace_map_id rest k v hrest]
        simp only [List.map_cons, List.nodup_cons]
        refine ⟨?_, hvals.2⟩
        intro hv
        obtain ⟨q, hq, hqv⟩ := List.mem_map.mp hv
        exact hfresh q (by simp [hq]) (hrest q hq) hqv
      · simp only [List.map_cons]
        rw [if_neg hc]
        simp only [List.map_cons, List.nodup_cons]
        refine ⟨?_, ih hkeys.2 hvals.2 (fun q hq => hfresh q (by simp [hq]))⟩
        intro hv
        rcases vals_replace_subset rest k v p.2 hv with h | h
        · exact hvals.1 h
        · exact hfresh p (by simp) (by simpa using hc) h

theorem dictInsert_inv (m : Mapping) (k : String) (v : Int)
    (hkeys : (mapKeys m).Nodup) (hvals : (mapVals m).Nodup)
    (hfresh : ∀ p ∈ m, p.1 ≠ k → p.2 ≠ v) :
    (mapKeys (dictInsert m k v)).Nodup ∧ (mapVals (dictInsert m k v)).Nodup ∧
    (∀ x ∈ mapVals (dictInsert m k v), x ∈ mapVals m ∨ x = v) ∧
    (∀ x ∈ mapKeys (dictInsert m k v), x ∈ mapKeys m ∨ x = k) := by
  unfold dictInsert
  by_cases hc : mapHasKey m k = true
  · rw [if_pos hc]
    refine ⟨by rw [mapKeys_replace]; exact hkeys,
      valsNodup_replace m k v hkeys hvals hfresh,
      vals_replace_subset m k v,
      by rw [mapKeys_replace]; exact fun x hx => Or.inl hx⟩
  · rw [if_neg hc]
    have hfalse : mapHasKey m k = false := by
      cases hb : mapHasKey m k
      · rfl
      · exact absurd hb hc
    unfold mapHasKey at hfalse
    have hall := List.any_eq_false.mp hfalse
    have hnk : k ∉ mapKeys m := by
      intro hmem
      obtain ⟨p, hp, hpk⟩ := List.mem_map.mp hmem
      exact hall p hp (by simp [hpk])
    have hnv : v ∉ mapVals m := by
      intro hmem
      obtain ⟨p, hp, hpv⟩ := List.mem_map.mp hmem
      refine hfresh p hp ?_ hpv
      intro he
      exact hnk (List.mem_map.mpr ⟨p, hp, he⟩)
    unfold mapKeys mapVals
    simp only [List.map_append, List.map_cons, List.map_nil]
    refine ⟨?_, ?_, ?_, ?_⟩
    · rw [List.nodup_append]
      refine ⟨hkeys, List.nodup_singleton k, ?_⟩
      intro x hx hk2
      exact hnk ((List.mem_singleton.mp hk2) ▸ hx)
    · rw [List.nodup_append]
      refine ⟨hvals, List.nodup_singleton v, ?_⟩
      intro x hx hv2
      exact hnv ((List.mem_singleton.mp hv2) ▸ hx)
    · intro x hx
      rcases List.mem_append.mp hx with h | h
      · exact Or.inl h
      · exact Or.inr (List.mem_singleton.mp h)
    · intro x hx
      rcases List.mem_append.mp hx with h | h
      · exact Or.inl h
      · exact Or.inr (List.mem_singleton.mp h)

theorem provisionLoop_pin_inv (rng : Rng) :
    ∀ n, (mapKeys (provisionLoop rng n).pin).Nodup ∧
      (mapVals (provisionLoop rng n).pin).Nodup ∧
      (∀ x ∈ mapVals (provisionLoop rng n).pin, 1 ≤ x ∧ x ≤ (n : Int)) := by
  intro n
  induction n with
  | zero =>
      refine ⟨by simp [provisionLoop, mapKeys], by simp [provisionLoop, mapVals],
        by simp [provisionLoop, mapVals]⟩
  | succ k ih =>
      obtain ⟨hk, hv, hb⟩ := ih
      rw [provisionLoop_succ]
      unfold provisionStep
      dsimp only
      have hfresh : ∀ p ∈ (provisionLoop rng k).pin,
          p.1 ≠ generate_table_pin (provisionLoop rng k).existingPins (rng.pinDraw k)
            (rng.pinUuid k) → p.2 ≠ (k : Int) + 1 := by
        intro p hp _
        have := hb p.2 (List.mem_map.mpr ⟨p, hp, rfl⟩)
        omega
      obtain ⟨h1, h2, h3, _⟩ := dictInsert_inv _ _ _ hk hv hfresh
      refine ⟨h1, h2, ?_⟩
      intro x hx
      rcases h3 x hx with h | h
      · have := hb x h
        constructor <;> [omega; (push_cast; omega)]
      · constructor <;> [omega; (rw [h]; push_cast; omega)]

theorem provisionLoop_pin_explicit (rng : Rng) :
    ∀ n, (∀ i, i < n → noFallbackAt rng i) →
      (provisionLoop rng n).existingPins = (List.range n).map (passPin rng) ∧
      (provisionLoop rng n).pin
        = (List.range n).map (fun i => (passPin rng i, (i : Int) + 1)) ∧
      ((List.range n).map (passPin rng)).Nodup := by
  intro n
  induction n with
  | zero => intro _; exact ⟨rfl, rfl, by simp⟩
  | succ k ih =>
      intro hnf
      obtain ⟨he, hp, hnd⟩ := ih (fun i hi => hnf i (by omega))
      have hfreshpin : passPin rng k ∉ (provisionLoop rng k).existingPins := by
        have hnfk := hnf k (by omega)
        unfold noFallbackAt at hnfk
        obtain ⟨j, hj⟩ := Option.isSome_iff_exists.mp hnfk
        have hpj := List.find?_some hj
        simp only [Bool.not_eq_true'] at hpj
        unfold passPin generate_table_pin
        rw [hj]
        intro hmem
        have : (provisionLoop rng k).existingPins.contains (toString (rng.pinDraw k j))
            = true := by simp [hmem]
        rw [this] at hpj
        simp at hpj
      rw [provisionLoop_succ]
      unfold provisionStep
      dsimp only
      have hgen : generate_table_pin (provisionLoop rng k).existingPins (rng.pinDraw k)
          (rng.pinUuid k) = passPin rng k := rfl
      rw [hgen]
      have hcont : (provisionLoop rng k).existingPins.contains (passPin rng k) = false := by
        cases hb : (provisionLoop rng k).existingPins.contains (passPin rng k)
        · rfl
        · exact absurd (by simpa using hb) hfreshpin
      refine ⟨?_, ?_, ?_⟩
      · rw [if_neg (by simpa using hfreshpin), he, List.range_succ, List.map_append]
        rfl
      · have hkeys : mapHasKey (provisionLoop rng k).pin (passPin rng k) = false := by
          unfold mapHasKey
          rw [List.any_eq_false]
          intro q hq
          rw [hp] at hq
          simp only [List.mem_map, List.mem_range] at hq
          obtain ⟨i, hi, rfl⟩ := hq
          simp only [beq_iff_eq]
          intro hqe
          apply hfreshpin
          rw [he, ← hqe]
          exact List.mem_map.mpr ⟨i, List.mem_range.mpr hi, rfl⟩
        rw [dictInsert_append _ _ _ hkeys, hp, List.range_succ, List.map_append]
        rfl
      · rw [List.range_succ, List.map_append, List.nodup_append]
        refine ⟨hnd, by simp, ?_⟩
        intro x hx hx2
        have hxe : x = passPin rng k := by simpa using hx2
        apply hfreshpin
        rw [he]
        exact hxe ▸ hx

/-- C4 (amended): for n in [1,100] provisioning succeeds and the token
mapping always holds exactly n distinct tokens mapped injectively onto the
table numbers 1..n; the PIN mapping does the same whenever each pass index
obtained its PIN from the checked retry loop (no uuid fallback) — absent
that assumption, per-pass PIN uniqueness is only probabilistic because the
exhaustion fallback is never checked against the taken set. -/
theorem configure_tables_in_range (n : Int) (rng : Rng) (tokFile pinFile : Mapping)
    (h1 : 1 ≤ n) (h2 : n ≤ 100) :
    (configure_tables n rng tokFile pinFile).2.2 = .ok () ∧
    mapVals (configure_tables n rng tokFile pinFile).1
        = (List.range n.toNat).map (fun i : Nat => (i : Int) + 1) ∧
    (mapKeys (configure_tables n rng tokFile pinFile).1).Nodup ∧
    (configure_tables n rng tokFile pinFile).1.length = n.toNat ∧
    ((∀ i, i < n.toNat → noFallbackAt rng i) →
        mapVals (configure_tables n rng tokFile pinFile).2.1
            = (List.range n.toNat).map (fun i : Nat => (i : Int) + 1) ∧
        (mapKeys (configure_tables n rng tokFile pinFile).2.1).Nodup ∧
        (configure_tables n rng tokFile pinFile).2.1.length = n.toNat) := by
  have hng : ¬ n < 1 := by omega
  have hng2 : ¬ n > 100 := by omega
  unfold configure_tables
  rw [if_neg hng, if_neg hng2]
  dsimp only
  have htok := provisionLoop_tok rng n.toNat (by omega)
  refine ⟨rfl, ?_, ?_, ?_, ?_⟩
  · rw [htok]
    unfold mapVals
    rw [List.map_map]
    rfl
  · rw [htok]
    unfold mapKeys
    rw [List.map_map]
    refine List.Nodup.map_on ?_ (List.nodup_range n.toNat)
    intro i hi j hj he
    simp only [List.mem_range] at hi hj
    simp only [Function.comp] at he
    have := generate_table_token_inj (i + 1) (j + 1) (by omega) (by omega) _ _ he
    omega
  · rw [htok]
    simp
  · intro hnf
    obtain ⟨_, hp, hnd⟩ := provisionLoop_pin_explicit rng n.toNat hnf
    refine ⟨?_, ?_, ?_⟩
    · rw [hp]
      unfold mapVals
      rw [List.map_map]
      rfl
    · rw [hp]
      unfold mapKeys
      rw [List.map_map]
      exact hnd
    · rw [hp]
      simp

/-- A random source whose draws are fresh at once. -/
def okRng : Rng := ⟨fun _ => "abcdefabcdefabcd", fun i _ => 1000 + i, fun _ => "ffffffff"⟩

theorem configure_tables_in_range_witness :
    (configure_tables 2 okRng [] []).2.2 = .ok () ∧
    mapVals (configure_tables 2 okRng [] []).1 = [(1 : Int), 2] ∧
    mapVals (configure_tables 2 okRng [] []).2.1 = [(1 : Int), 2] := by
  obtain ⟨ha, hb, _, _, he⟩ := configure_tables_in_range 2 okRng [] [] (by decide) (by decide)
  obtain ⟨h5, _, _⟩ := he (by decide)
  refine ⟨ha, ?_, ?_⟩
  · rw [hb]
    rfl
  · rw [h5]
    rfl

/-- A well-formed token store: injective in both directions and holding no
empty-string token (the conflict checks test the found token's Python
truthiness, so an empty-string token would evade them). -/
def goodMapping (m : Mapping) : Prop :=
  injectiveMapping m ∧ "" ∉ mapKeys m

instance (m : Mapping) : Decidable (goodMapping m) := by
  unfold goodMapping
  infer_instance

theorem isEmpty_false_of_ne (s : String) (h : s ≠ "") : s.isEmpty = false := by
  cases hb : s.isEmpty
  · rfl
  · exact absurd ((String.isEmpty_iff s).mp hb) h

theorem generate_table_token_ne_empty (a : Nat) (u : String) :
    generate_table_token a u ≠ "" := by
  intro h
  have hd := congrArg String.data h
  unfold generate_table_token at hd
  simp only [String.data_append] at hd
  simp at hd

theorem findKeyByVal_truthy (m : Mapping) (tn : Int) (hne : "" ∉ mapKeys m)
    (p : String × Int) (hp : p ∈ m) (hptn : p.2 = tn) :
    truthyKey (findKeyByVal m tn) = true := by
  have hsome : (m.find? (fun q => q.2 == tn)).isSome :=
    List.find?_isSome.mpr ⟨p, hp, by simp [hptn]⟩
  obtain ⟨q, hq⟩ := Option.isSome_iff_exists.mp hsome
  have hqm := List.mem_of_find?_eq_some hq
  have hq1 : q.1 ≠ "" := fun h0 => hne (List.mem_map.mpr ⟨q, hqm, h0⟩)
  unfold truthyKey findKeyByVal
  rw [hq]
  simp [isEmpty_false_of_ne q.1 hq1]

theorem hasKey_false_of_not (m : Mapping) (token : String)
    (hc : ¬ mapHasKey m token = true) : mapHasKey m token = false := by
  cases hb : mapHasKey m token
  · rfl
  · exact absurd hb hc

/-- C6 (amended): on a store whose tokens are all nonempty strings, every
identity-store operation preserves the injectivity invariant of both the
token and the PIN mapping; insert (with a nonempty token) and update
reject a table number owned by a different token with the 400 conflict
error, and bulk replace rejects duplicate table numbers in its payload
with the 400 invalid-argument error.  The nonempty-token proviso is
necessary: the conflict checks test the found token's truthiness. -/
theorem identity_store_invariant (m : Mapping) (hm : goodMapping m) :
    (∀ token tn, token ≠ "" →
        goodMapping (create_table_mapping m token tn).1 ∧
        ((∃ p ∈ m, p.2 = tn) → mapHasKey m token = false →
          create_table_mapping m token tn = (m, .error ⟨400, .tableNumberExists⟩))) ∧
    (∀ token tn,
        goodMapping (update_table_mapping m token tn).1 ∧
        ((∃ p ∈ m, p.2 = tn ∧ p.1 ≠ token) → mapHasKey m token = true →
          update_table_mapping m token tn = (m, .error ⟨400, .tableNumberExists⟩))) ∧
    (∀ token, goodMapping (delete_table_mapping m token).1) ∧
    (∀ payload : Mapping, (mapKeys payload).Nodup → "" ∉ mapKeys payload →
        goodMapping (bulk_update_tables m payload).1 ∧
        (¬ (mapVals payload).Nodup →
          bulk_update_tables m payload = (m, .error ⟨400, .duplicateTableNumbers⟩))) ∧
    (∀ (n : Int) (rng : Rng) (pinm : Mapping), injectiveMapping pinm →
        goodMapping (configure_tables n rng m pinm).1 ∧
        injectiveMapping (configure_tables n rng m pinm).2.1) := by
  obtain ⟨⟨hkeys, hvals⟩, hne⟩ := hm
  refine ⟨?_, ?_, ?_, ?_, ?_⟩
  · -- create_table_mapping
    intro token tn htok
    constructor
    · unfold create_table_mapping
      by_cases hc1 : mapHasKey m token = true
      · rw [if_pos hc1]
        exact ⟨⟨hkeys, hvals⟩, hne⟩
      · rw [if_neg hc1]
        by_cases hc2 : truthyKey (findKeyByVal m tn) = true
        · rw [if_pos hc2]
          exact ⟨⟨hkeys, hvals⟩, hne⟩
        · rw [if_neg hc2]
          have hval : ∀ p ∈ m, p.2 ≠ tn := by
            intro p hp he
            exact hc2 (findKeyByVal_truthy m tn hne p hp he)
          obtain ⟨h1, h2, _, h4⟩ :=
            dictInsert_inv m token tn hkeys hvals (fun p hp _ => hval p hp)
          refine ⟨⟨h1, h2⟩, ?_⟩
          intro hmem
          rcases h4 "" hmem with h | h
          · exact hne h
          · exact htok h.symm
    · rintro ⟨p, hp, hptn⟩ hnk
      unfold create_table_mapping
      rw [if_neg (by simp [hnk]), if_pos (findKeyByVal_truthy m tn hne p hp hptn)]
  · -- update_table_mapping
    intro token tn
    constructor
    · unfold update_table_mapping
      by_cases hc1 : mapHasKey m token = true
      · rw [if_neg (by simp [hc1])]
        by_cases hc2 : truthyKey ((m.find? (fun p => p.2 == tn && p.1 != token)).map
            (fun p => p.1)) = true
        · rw [if_pos hc2]
          exact ⟨⟨hkeys, hvals⟩, hne⟩
        · rw [if_neg hc2]
          have htokmem : token ∈ mapKeys m := by
            obtain ⟨p, hp, hpt⟩ := List.any_eq_true.mp hc1
            exact List.mem_map.mpr ⟨p, hp, eq_of_beq hpt⟩
          have htokne : token ≠ "" := fun h0 => hne (h0 ▸ htokmem)
          have hfresh : ∀ p ∈ m, p.1 ≠ token → p.2 ≠ tn := by
            intro p hp hpt he
            apply hc2
            have hsome : (m.find? (fun q => q.2 == tn && q.1 != token)).isSome :=
              List.find?_isSome.mpr ⟨p, hp, by simp [he, hpt]⟩
            obtain ⟨q, hq⟩ := Option.isSome_iff_exists.mp hsome
            have hqm := List.mem_of_find?_eq_some hq
            have hq1 : q.1 ≠ "" := fun h0 => hne (List.mem_map.mpr ⟨q, hqm, h0⟩)
            unfold truthyKey
            rw [hq]
            simp [isEmpty_false_of_ne q.1 hq1]
          obtain ⟨h1, h2, _, h4⟩ := dictInsert_inv m token tn hkeys hvals hfresh
          refine ⟨⟨h1, h2⟩, ?_⟩
          intro hmem
          rcases h4 "" hmem with h | h
          · exact hne h
          · exact htokne h.symm
      · rw [if_pos (by simpa using hasKey_false_of_not m token hc1)]
        exact ⟨⟨hkeys, hvals⟩, hne⟩
    · rintro ⟨p, hp, hptn, hpt⟩ hk
      unfold update_table_mapping
      rw [if_neg (by simp [hk])]
      rw [if_pos ?_]
      have hsome : (m.find? (fun q => q.2 == tn && q.1 != token)).isSome :=
        List.find?_isSome.mpr ⟨p, hp, by simp [hptn, hpt]⟩
      obtain ⟨q, hq⟩ := Option.isSome_iff_exists.mp hsome
      have hqm := List.mem_of_find?_eq_some hq
      have hq1 : q.1 ≠ "" := fun h0 => hne (List.mem_map.mpr ⟨q, hqm, h0⟩)
      unfold truthyKey
      rw [hq]
      simp [isEmpty_false_of_ne q.1 hq1]
  · -- delete_table_mapping
    intro token
    unfold delete_table_mapping
    by_cases hc1 : mapHasKey m token = true
    · rw [if_neg (by simp [hc1])]
      have hsub : (dictErase m token).Sublist m := List.filter_sublist m
      have hks := hsub.map (fun p : String × Int => p.1)
      have hvs := hsub.map (fun p : String × Int => p.2)
      refine ⟨⟨hks.nodup hkeys, hvs.nodup hvals⟩, ?_⟩
      intro hmem
      exact hne (List.Sublist.mem hmem hks)
    · rw [if_pos (by simpa using hasKey_false_of_not m token hc1)]
      exact ⟨⟨hkeys, hvals⟩, hne⟩
  · -- bulk_update_tables
    intro payload hpk hpe
    constructor
    · unfold bulk_update_tables
      by_cases hc : (mapVals payload).Nodup
      · rw [if_pos hc]
        exact ⟨⟨hpk, hc⟩, hpe⟩
      · rw [if_neg hc]
        exact ⟨⟨hkeys, hvals⟩, hne⟩
    · intro hc
      unfold bulk_update_tables
      rw [if_neg hc]
  · -- configure_tables
    intro n rng pinm hpin
    by_cases hn1 : n < 1
    · unfold configure_tables
      rw [if_pos hn1]
      exact ⟨⟨⟨hkeys, hvals⟩, hne⟩, hpin⟩
    · by_cases hn2 : n > 100
      · unfold configure_tables
        rw [if_neg hn1, if_pos hn2]
        exact ⟨⟨⟨hkeys, hvals⟩, hne⟩, hpin⟩
      · unfold configure_tables
        rw [if_neg hn1, if_neg hn2]
        dsimp only
        have htok := provisionLoop_tok rng n.toNat (by omega)
        obtain ⟨hp1, hp2, _⟩ := provisionLoop_pin_inv rng n.toNat
        refine ⟨⟨⟨?_, ?_⟩, ?_⟩, hp1, hp2⟩
        · rw [htok]
          unfold mapKeys
          rw [List.map_map]
          refine List.Nodup.map_on ?_ (List.nodup_range n.toNat)
          intro i hi j hj he2
          simp only [List.mem_range] at hi hj
          simp only [Function.comp] at he2
          have := generate_table_token_inj (i + 1) (j + 1) (by omega) (by omega) _ _ he2
          omega
        · rw [htok]
          unfold mapVals
          rw [List.map_map]
          refine List.Nodup.map_on ?_ (List.nodup_range n.toNat)
          intro i _ j _ he2
          simp only [Function.comp] at he2
          omega
        · rw [htok]
          intro hmem
          unfold mapKeys at hmem
          rw [List.map_map] at hmem
          obtain ⟨i, _, hi⟩ := List.mem_map.mp hmem
          exact generate_table_token_ne_empty (i + 1) (rng.tokenUuid i) hi

theorem identity_store_invariant_witness :
    goodMapping [("a", 1), ("b", 2)] ∧
    goodMapping (create_table_mapping [("a", 1), ("b", 2)] "c" 3).1 ∧
    create_table_mapping [("a", 1), ("b", 2)] "c" 2
        = ([("a", 1), ("b", 2)], .error ⟨400, .tableNumberExists⟩) ∧
    goodMapping (update_table_mapping [("a", 1), ("b", 2)] "a" 3).1 ∧
    update_table_mapping [("a", 1), ("b", 2)] "a" 2
        = ([("a", 1), ("b", 2)], .error ⟨400, .tableNumberExists⟩) ∧
    goodMapping (delete_table_mapping [("a", 1), ("b", 2)] "a").1 ∧
    bulk_update_tables [("a", 1), ("b", 2)] [("x", 5), ("y", 5)]
        = ([("a", 1), ("b", 2)], .error ⟨400, .duplicateTableNumbers⟩) ∧
    goodMapping (configure_tables 1 okRng [("a", 1), ("b", 2)] [("9999", 3)]).1 ∧
    injectiveMapping (configure_tables 1 okRng [("a", 1), ("b", 2)] [("9999", 3)]).2.1 :=
  ⟨by decide,
   ((identity_store_invariant [("a", 1), ("b", 2)] (by decide)).1 "c" 3 (by decide)).1,
   ((identity_store_invariant [("a", 1), ("b", 2)] (by decide)).1 "c" 2 (by decide)).2
     (by decide) (by decide),
   ((identity_store_invariant [("a", 1), ("b", 2)] (by decide)).2.1 "a" 3).1,
   ((identity_store_invariant [("a", 1), ("b", 2)] (by decide)).2.1 "a" 2).2
     (by decide) (by decide),
   (identity_store_invariant [("a", 1), ("b", 2)] (by decide)).2.2.1 "a",
   ((identity_store_invariant [("a", 1), ("b", 2)] (by decide)).2.2.2.1
     [("x", 5), ("y", 5)] (by decide) (by decide)).2 (by decide),
   ((identity_store_invariant [("a", 1), ("b", 2)] (by decide)).2.2.2.2 1 okRng
     [("9999", 3)] (by decide)).1,
   ((identity_store_invariant [("a", 1), ("b", 2)] (by decide)).2.2.2.2 1 okRng
     [("9999", 3)] (by decide)).2⟩

end QrMenu
